import Mathlib

/-!
Verification development for the sync-orchestration core of the
vscode-remote-sync repository: glob/ignore pattern gating
(src/utils/gitignore.ts, src/core/FileSyncManager.ts), the debounced
trigger state machine (src/core/FileSyncManager.ts), the guarded
retry/backoff orchestrator (src/core/ConnectionManager.ts) and the
transfer executor result mapping (src/core/RsyncExecutor.ts).

Shallow embedding conventions: JavaScript Map/Set become association
lists and lists of keys; JavaScript numbers that the code only ever
uses as non-negative integers become Nat, numbers the code could drive
negative become Int, and a number that can be NaN becomes Option Nat
with none for NaN; promise-based control flow becomes explicit state
passing, with the awaited per-attempt transfer outcome supplied as a
function from attempt index to result; thrown exceptions become Except.
String positional operations (split, trim, affix tests) are implemented
over the character list of the string, which is the shallow embedding of
a JavaScript string.
-/

namespace RemoteSync

/-! ## Character-list string operations -/

/-- Split a character list at every occurrence of the separator, keeping
empty pieces, as the JavaScript split on a single-character separator
does. -/
def splitOnChar (sep : Char) : List Char → List (List Char)
  | [] => [[]]
  | c :: cs =>
    let rest := splitOnChar sep cs
    if c == sep then [] :: rest
    else
      match rest with
      | [] => [[c]]
      | r :: rs => (c :: r) :: rs

/-- Whether the first list starts with the second. -/
def startsWithL : List Char → List Char → Bool
  | _, [] => true
  | [], _ :: _ => false
  | c :: cs, p :: ps => c == p && startsWithL cs ps

/-- Whether the first list ends with the second. -/
def endsWithL (cs suf : List Char) : Bool :=
  startsWithL cs.reverse suf.reverse

/-- ASCII model of the whitespace class of JavaScript (space, tab, line
feed, carriage return, vertical tab, form feed). -/
def isJsWs (c : Char) : Bool :=
  c == ' ' || c == '\t' || c == '\n' || c == '\r' ||
    c == Char.ofNat 11 || c == Char.ofNat 12

/-- Model of the JavaScript trim: drop whitespace from both ends. -/
def jsTrim (cs : List Char) : List Char :=
  ((cs.dropWhile isJsWs).reverse.dropWhile isJsWs).reverse

/-! ## Glob matching (model of the minimatch dependency)

The trigger gate and the ignore parser delegate pattern matching to the
minimatch npm package. The model below covers the pattern fragment the
repository exercises: literal characters, a single-character wildcard, a
within-segment wildcard that does not cross path separators, a globstar
segment matching any number of segments, and the default rule that a
wildcard does not match a name whose first character is a dot. -/

/-- Within-segment wildcard match: star matches any run of characters in
the segment (expressed as a choice of split point, which is equivalent to
the backtracking search of the library), the question mark one character,
all others literally. -/
def segMatch : List Char → List Char → Bool
  | [], n => n.isEmpty
  | '*' :: ps, n => (List.range (n.length + 1)).any (fun i => segMatch ps (n.drop i))
  | '?' :: ps, n =>
    match n with
    | [] => false
    | _ :: cs => segMatch ps cs
  | p :: ps, n =>
    match n with
    | [] => false
    | c :: cs => p == c && segMatch ps cs

/-- A path segment whose name starts with a dot. -/
def isDotSeg : List Char → Bool
  | '.' :: _ => true
  | _ => false

/-- Default minimatch dot rule: a segment whose name starts with a dot is
only matched by a pattern segment that itself starts with a literal dot. -/
def segMatchDot (p n : List Char) : Bool :=
  if isDotSeg n then
    match p with
    | '.' :: _ => segMatch p n
    | _ => false
  else segMatch p n

/-- Segment-list match: a globstar segment matches zero or more path
segments (never entering dot-named segments, expressed as a choice of how
many segments it consumes), other pattern segments match exactly one path
segment. -/
def globSegs : List (List Char) → List (List Char) → Bool
  | [], n => n.isEmpty
  | p :: ps, n =>
    if p == ['*', '*'] then
      (List.range (n.length + 1)).any (fun i =>
        (n.take i).all (fun s => !isDotSeg s) && globSegs ps (n.drop i))
    else
      match n with
      | [] => false
      | seg :: ns => segMatchDot p seg && globSegs ps ns

/-- Character-list form of minimatch(path, pattern): split both on the
path separator and match segment lists. -/
def minimatchL (path pattern : List Char) : Bool :=
  globSegs (splitOnChar '/' pattern) (splitOnChar '/' path)

/-- Model of minimatch(path, pattern) on strings. -/
def minimatch (path pattern : String) : Bool :=
  minimatchL path.toList pattern.toList

/-! ## GitignoreParser (src/utils/gitignore.ts) -/

/-- Parsed ignore rule set: positive patterns and negated patterns, in
file order, each pattern a character list. -/
structure GitignoreParser where
  patterns : List (List Char) := []
  negativePatterns : List (List Char) := []
deriving DecidableEq, Repr

/-- One step of the constructor loop of GitignoreParser: a trimmed line
that is empty or starts with a hash is skipped, a line starting with a
bang is added (without the bang) to the negated patterns, any other line
to the positive patterns. -/
def gitignoreStep (acc : GitignoreParser) (line : List Char) : GitignoreParser :=
  let trimmed := jsTrim line
  if trimmed.isEmpty || startsWithL trimmed ['#'] then acc
  else if startsWithL trimmed ['!'] then
    { acc with negativePatterns := acc.negativePatterns ++ [trimmed.drop 1] }
  else
    { acc with patterns := acc.patterns ++ [trimmed] }

/-- Constructor of GitignoreParser: split the content on newlines and
fold the line classifier over it. -/
def GitignoreParser.ofContent (content : String) : GitignoreParser :=
  (splitOnChar '\n' content.toList).foldl gitignoreStep {}

/-- GitignoreParser.matchesPattern: directory patterns (trailing slash)
match by prefix or with the trailing-slash form; root-anchored patterns
(leading slash) match the bare pattern; all others match either directly
or under an implicit globstar prefix. The branch on a pattern containing
a slash returns the same expression as the default branch, as in the
source. -/
def matchesPatternL (rel pat : List Char) : Bool :=
  if endsWithL pat ['/'] then
    startsWithL rel pat || minimatchL (rel ++ ['/']) pat
  else if startsWithL pat ['/'] then
    minimatchL rel (pat.drop 1)
  else if pat.contains '/' then
    minimatchL rel pat || minimatchL rel (['*', '*', '/'] ++ pat)
  else
    minimatchL rel pat || minimatchL rel (['*', '*', '/'] ++ pat)

/-- String-facing form of GitignoreParser.matchesPattern. -/
def GitignoreParser.matchesPattern (relativePath pattern : String) : Bool :=
  matchesPatternL relativePath.toList pattern.toList

/-- GitignoreParser.isIgnored: any matching negated pattern wins and the
path is not ignored; otherwise the path is ignored iff some positive
pattern matches. -/
def GitignoreParser.isIgnored (g : GitignoreParser) (relativePath : String) : Bool :=
  if g.negativePatterns.any (fun p => matchesPatternL relativePath.toList p) then
    false
  else
    g.patterns.any (fun p => matchesPatternL relativePath.toList p)

/-! ## Trigger gate (src/core/FileSyncManager.ts, shouldTriggerSync) -/

/-- Trigger configuration: include and exclude glob lists. -/
structure TriggerConfig where
  patterns : List String
  excludePatterns : List String
deriving Repr

/-- FileSyncManager.shouldTriggerSync on the workspace-relative path: an
ignored path never triggers, then any matching exclude pattern blocks,
then a literal universal wildcard in the include list triggers, then any
matching include pattern triggers. Include and exclude patterns are
matched with plain minimatch on the relative path. -/
def shouldTriggerSync (gitignore : Option GitignoreParser) (relativePath : String)
    (tc : TriggerConfig) : Bool :=
  if (match gitignore with
      | some g => g.isIgnored relativePath
      | none => false) then false
  else if tc.excludePatterns.any (fun p => minimatch relativePath p) then false
  else if tc.patterns.contains "*" then true
  else tc.patterns.any (fun p => minimatch relativePath p)

/-! ## Shared result type (src/types/index.ts, SyncResult)

The two statistics fields hold a JavaScript number that can be NaN (the
parse of an all-separator digit group); none models NaN. The error field
holds the message of the Error object carried in the result. -/

/-- Result of one transfer execution. -/
structure SyncResult where
  success : Bool
  duration : Nat
  filesTransferred : Option Nat
  bytesTransferred : Option Nat
  error : Option String := none
deriving DecidableEq, Repr

/-! ## RsyncExecutor (src/core/RsyncExecutor.ts)

The statistics parser applies two regular expressions to the accumulated
standard output. Both are modelled as explicit searches: try to match at
every start position, left to right. For both patterns the greedy runs
need no backtracking because the character classes at each boundary
(whitespace, digits-and-commas, the literal that follows) are pairwise
disjoint. -/

/-- Consume the literal prefix, returning the remainder on a match. -/
def dropLit : List Char → List Char → Option (List Char)
  | [], cs => some cs
  | _ :: _, [] => none
  | l :: ls, c :: cs => if c == l then dropLit ls cs else none

/-- Numeric value of a digit run. -/
def digitsVal (ds : List Char) : Nat :=
  ds.foldl (fun acc c => acc * 10 + (c.toNat - 48)) 0

/-- Literal part of the files-transferred pattern. -/
def filesLit : List Char := "Number of files transferred:".toList

/-- Literal part of the bytes-transferred pattern. -/
def bytesLit : List Char := "Total transferred file size:".toList

/-- Match the files pattern at this position: the literal, then optional
whitespace, then a non-empty digit run, which is captured. -/
def matchFilesAt (cs : List Char) : Option (List Char) :=
  match dropLit filesLit cs with
  | none => none
  | some rest =>
    let ds := (rest.dropWhile isJsWs).takeWhile Char.isDigit
    if ds.isEmpty then none else some ds

/-- Match the bytes pattern at this position: the literal, optional
whitespace, a non-empty run of digits and commas (captured), optional
whitespace, then the word bytes. -/
def matchBytesAt (cs : List Char) : Option (List Char) :=
  match dropLit bytesLit cs with
  | none => none
  | some rest =>
    let afterWs := rest.dropWhile isJsWs
    let num := afterWs.takeWhile (fun c => c.isDigit || c == ',')
    if num.isEmpty then none
    else
      let rest2 := (afterWs.drop num.length).dropWhile isJsWs
      if (dropLit "bytes".toList rest2).isSome then some num else none

/-- Unanchored regular-expression search: try the matcher at every start
position, leftmost match wins. -/
def searchFrom (f : List Char → Option (List Char)) : List Char → Option (List Char)
  | [] => f []
  | c :: cs =>
    match f (c :: cs) with
    | some ds => some ds
    | none => searchFrom f cs

/-- Statistics extracted from the rsync standard output. -/
structure RsyncStats where
  filesTransferred : Option Nat
  bytesTransferred : Option Nat
deriving DecidableEq, Repr

/-- RsyncExecutor.parseStats: the files count is the captured digit run
of the first pattern, the byte count the captured digit-and-comma run of
the second with commas stripped before parsing; a missing match yields
zero. Parsing an all-comma capture is NaN (none), as parseInt of an
empty string is. -/
def parseStats (output : String) : RsyncStats :=
  let files :=
    match searchFrom matchFilesAt output.toList with
    | some ds => some (digitsVal ds)
    | none => some 0
  let bytes :=
    match searchFrom matchBytesAt output.toList with
    | some ds =>
      let stripped := ds.filter (fun c => c != ',')
      if stripped.isEmpty then none else some (digitsVal stripped)
    | none => some 0
  { filesTransferred := files, bytesTransferred := bytes }

/-- Outcome of the spawned rsync process, as seen by the two event
handlers of RsyncExecutor.execute: either the close event with an exit
code (null when killed by a signal) and the accumulated output streams,
or the error event with the spawn failure. -/
inductive ProcessOutcome where
  | closed (code : Option Int) (stdout stderr : String)
  | spawnError (message : String)
deriving Repr

/-- JavaScript string interpolation of the exit code, which prints null
for a null code. -/
def jsCodeStr : Option Int → String
  | some n => toString n
  | none => "null"

/-- RsyncExecutor.execute as a function of the process outcome and the
wall-clock duration: exit code zero resolves to a successful result with
parsed statistics; any other close resolves to a failed result whose
error message embeds the exit code and the captured standard error; a
spawn error resolves to a failed result carrying that error. Every
branch resolves; nothing is thrown. -/
def RsyncExecutor.execute (outcome : ProcessOutcome) (duration : Nat) : SyncResult :=
  match outcome with
  | .closed code stdout stderr =>
    if code == some 0 then
      let stats := parseStats stdout
      { success := true, duration := duration,
        filesTransferred := stats.filesTransferred,
        bytesTransferred := stats.bytesTransferred, error := none }
    else
      { success := false, duration := duration,
        filesTransferred := some 0, bytesTransferred := some 0,
        error := some ("Rsync failed with code " ++ jsCodeStr code ++ ": " ++ stderr) }
  | .spawnError message =>
    { success := false, duration := duration,
      filesTransferred := some 0, bytesTransferred := some 0,
      error := some message }

/-! ## Retry loop (src/core/ConnectionManager.ts, executeWithRetry)

The per-attempt transfer outcome is supplied as a function from the
attempt index to the resolved result, abstracting the awaited
RsyncExecutor.execute call. The loop is instrumented with a trace of
events: one entry per executor invocation and one per awaited backoff
delay, in order. -/

/-- Modelled from the spec: SYNC_CONSTANTS.RETRY_DELAYS_MS lives in a
utils constants module that is not part of the source tree; the spec
fixes the schedule at one, two and four seconds, matching the inline
list of the earlier revision of the file. -/
def RETRY_DELAYS_MS : List Nat := [1000, 2000, 4000]

/-- Backoff delay for a failed attempt, as selected by the expression
RETRY_DELAYS_MS[attempt] or-else RETRY_DELAYS_MS[2]: an out-of-range
index (and a zero entry, which the JavaScript or-operator also treats as
falsy) falls back to the third entry. -/
def retryDelayMs (attempt : Nat) : Nat :=
  match RETRY_DELAYS_MS.get? attempt with
  | some d => if d == 0 then RETRY_DELAYS_MS.getD 2 0 else d
  | none => RETRY_DELAYS_MS.getD 2 0

/-- Trace entry of the retry loop: an executor invocation with its
resolved result, or an awaited backoff delay in milliseconds. -/
inductive RetryEvent where
  | attemptMade (r : SyncResult)
  | delayed (ms : Nat)
deriving DecidableEq, Repr

/-- Number of executor invocations recorded in a trace. -/
def attemptCount (tr : List RetryEvent) : Nat :=
  tr.countP (fun e =>
    match e with
    | .attemptMade _ => true
    | .delayed _ => false)

/-- Backoff delays recorded in a trace, in order. -/
def delaysOf (tr : List RetryEvent) : List Nat :=
  tr.filterMap (fun e =>
    match e with
    | .delayed ms => some ms
    | .attemptMade _ => none)

/-- Body of the retry loop from the current attempt index on: invoke the
executor, return on success, otherwise await the backoff delay when this
is not the final attempt and continue. Returns the returned result and
the event trace. -/
def retryLoop (execute : Nat → SyncResult) (maxRetries attempt : Nat) :
    SyncResult × List RetryEvent :=
  let result := execute attempt
  if result.success then (result, [RetryEvent.attemptMade result])
  else if h : attempt < maxRetries then
    let rest := retryLoop execute maxRetries (attempt + 1)
    (rest.1, RetryEvent.attemptMade result :: RetryEvent.delayed (retryDelayMs attempt) :: rest.2)
  else (result, [RetryEvent.attemptMade result])
termination_by maxRetries - attempt

/-- ConnectionManager.executeWithRetry: the loop runs attempts zero
through maxRetries; a negative maxRetries runs no attempt and throws the
no-attempts error. -/
def executeWithRetry (execute : Nat → SyncResult) (maxRetries : Int) :
    Except String (SyncResult × List RetryEvent) :=
  if maxRetries < 0 then Except.error "No sync attempts were made"
  else Except.ok (retryLoop execute maxRetries.toNat 0)

/-! ## ConnectionManager (src/core/ConnectionManager.ts) -/

/-- Connection configuration for one workspace. -/
structure ConnectionConfig where
  host : String
  remotePath : String
  enabled : Bool
deriving DecidableEq, Repr

/-- Per-workspace connection state. The failure count is an Int because
the JavaScript number is only kept non-negative by the update discipline,
which is exactly what the invariant below establishes. The last sync
time is an abstract timestamp. -/
structure ConnectionState where
  config : ConnectionConfig
  lastSyncTime : Option Nat := none
  failureCount : Int
deriving DecidableEq, Repr

/-- Sync configuration; the retry count is an Int for the same reason as
the failure count: nothing in the type of the source keeps it
non-negative. -/
structure SyncConfig where
  deleteExtraneous : Bool
  useGitignore : Bool
  additionalExcludes : List String
  retryCount : Int
deriving Repr

/-- Error thrown for precondition violations; the stored message embeds
the code in brackets as the ConnectionError class of src/utils/errors.ts
does. -/
structure ConnectionError where
  message : String
  code : String
deriving DecidableEq, Repr

/-- Constructor of ConnectionError. -/
def mkConnectionError (message code : String) : ConnectionError :=
  { message := "[" ++ code ++ "] " ++ message, code := code }

/-- Modelled from the spec: the ERROR_CODES constants live in a utils
module that is not part of the source tree; only the two distinct codes
used by ConnectionManager are needed. -/
def NO_CONNECTION : String := "NO_CONNECTION"

/-- Modelled from the spec: the code of the concurrency rejection. -/
def SYNC_IN_PROGRESS : String := "SYNC_IN_PROGRESS"

/-- Everything ConnectionManager.sync can throw: a ConnectionError from
a failed precondition, or the internal no-attempts error rethrown from
the retry loop through the finally block. -/
inductive SyncThrow where
  | conn (e : ConnectionError)
  | internal (message : String)
deriving DecidableEq, Repr

/-- Map update of the association-list model of the connections Map. The
insertion order of the JavaScript Map is not observed by any embedded
operation, so the updated binding is moved to the front. -/
def mapSet (m : List (String × ConnectionState)) (k : String) (v : ConnectionState) :
    List (String × ConnectionState) :=
  (k, v) :: m.filter (fun kv => kv.1 != k)

/-- Set insertion for the active-operations model. -/
def setAdd (s : List String) (x : String) : List String :=
  if s.contains x then s else x :: s

/-- Set deletion for the active-operations model. -/
def setDelete (s : List String) (x : String) : List String :=
  s.filter (fun y => y != x)

/-- State of one ConnectionManager instance. -/
structure ConnectionManager where
  connections : List (String × ConnectionState) := []
  activeOperations : List String := []
deriving Repr

namespace ConnectionManager

/-- ConnectionManager.getConnection. -/
def getConnection (m : ConnectionManager) (workspaceFolder : String) :
    Option ConnectionState :=
  m.connections.lookup workspaceFolder

/-- ConnectionManager.setConnection: store a fresh state with the given
config and a zero failure count. -/
def setConnection (m : ConnectionManager) (workspaceFolder : String)
    (config : ConnectionConfig) : ConnectionManager :=
  { m with connections :=
      mapSet m.connections workspaceFolder { config := config, failureCount := 0 } }

/-- ConnectionManager.removeConnection: delete the state and any active
marker. -/
def removeConnection (m : ConnectionManager) (workspaceFolder : String) :
    ConnectionManager :=
  { m with
    connections := m.connections.filter (fun kv => kv.1 != workspaceFolder),
    activeOperations := setDelete m.activeOperations workspaceFolder }

/-- ConnectionManager.isActive. -/
def isActive (m : ConnectionManager) (workspaceFolder : String) : Bool :=
  m.activeOperations.contains workspaceFolder

/-- ConnectionManager.getFailureCount. -/
def getFailureCount (m : ConnectionManager) (workspaceFolder : String) : Int :=
  match m.connections.lookup workspaceFolder with
  | some st => st.failureCount
  | none => 0

/-- ConnectionManager.getLastSyncTime. -/
def getLastSyncTime (m : ConnectionManager) (workspaceFolder : String) : Option Nat :=
  (m.connections.lookup workspaceFolder).bind (fun st => st.lastSyncTime)

/-- ConnectionManager.sync: guard on a configured, enabled connection,
then on no in-flight operation for the key; mark the key active, run the
retry loop, update the stored state from the final result, and clear the
marker on every exit path of the try block, as the finally clause does.
The abstract timestamp taken for a successful sync is passed as now. -/
def sync (m : ConnectionManager) (workspaceFolder : String) (syncConfig : SyncConfig)
    (execute : Nat → SyncResult) (now : Nat) :
    Except SyncThrow SyncResult × ConnectionManager :=
  match m.connections.lookup workspaceFolder with
  | none =>
    (Except.error (SyncThrow.conn
      (mkConnectionError "No active connection for workspace" NO_CONNECTION)), m)
  | some state =>
    if state.config.enabled = false then
      (Except.error (SyncThrow.conn
        (mkConnectionError "No active connection for workspace" NO_CONNECTION)), m)
    else if m.activeOperations.contains workspaceFolder then
      (Except.error (SyncThrow.conn
        (mkConnectionError "Sync already in progress" SYNC_IN_PROGRESS)), m)
    else
      let m1 := { m with activeOperations := setAdd m.activeOperations workspaceFolder }
      match executeWithRetry execute syncConfig.retryCount with
      | Except.error msg =>
        (Except.error (SyncThrow.internal msg),
         { m1 with activeOperations := setDelete m1.activeOperations workspaceFolder })
      | Except.ok (result, _) =>
        let updated :=
          if result.success then
            { state with lastSyncTime := some now, failureCount := 0 }
          else
            { state with failureCount := state.failureCount + 1 }
        let m2 := { m1 with connections := mapSet m1.connections workspaceFolder updated }
        (Except.ok result,
         { m2 with activeOperations := setDelete m2.activeOperations workspaceFolder })

end ConnectionManager

/-- Managers reachable from a fresh instance through the public
operations. -/
inductive Reachable : ConnectionManager → Prop where
  | init : Reachable {}
  | set (m : ConnectionManager) (k : String) (c : ConnectionConfig) :
      Reachable m → Reachable (m.setConnection k c)
  | remove (m : ConnectionManager) (k : String) :
      Reachable m → Reachable (m.removeConnection k)
  | sync (m : ConnectionManager) (k : String) (cfg : SyncConfig)
      (execute : Nat → SyncResult) (now : Nat) :
      Reachable m → Reachable (m.sync k cfg execute now).2

/-! ## Debounced trigger (src/core/FileSyncManager.ts)

The per-key projection of the manager state: the pending debounce timer
of the key with its scheduled fire time, and whether the key is
registered in the callbacks map. Input events carry their wall-clock
time; a pending timer whose deadline has passed fires before the next
event is processed, and a timer still pending once all events are done
fires at its deadline. The output is the list of callback invocation
times for the key. Only saves that pass the trigger gate reach
scheduleSync, so save events model eligible saves. -/

/-- Per-key debounce state. -/
structure KeyState where
  pending : Option Nat
  registered : Bool
deriving DecidableEq, Repr

/-- Timed input event for one key: an eligible save, the removal of the
key, or the disposal of the whole manager (identical to removal in the
per-key projection). -/
inductive FsEvent where
  | save (t : Nat)
  | unregister (t : Nat)
  | dispose (t : Nat)
deriving DecidableEq, Repr

/-- Wall-clock time of an event. -/
def FsEvent.time : FsEvent → Nat
  | .save t => t
  | .unregister t => t
  | .dispose t => t

/-- Fire the pending timer if its deadline is not after the given time:
the timeout body deletes the pending entry and invokes the callback only
when the key is still registered. -/
def fireIfDue (s : KeyState) (t : Nat) : KeyState × List Nat :=
  match s.pending with
  | some d =>
    if d ≤ t then ({ s with pending := none }, if s.registered then [d] else [])
    else (s, [])
  | none => (s, [])

/-- Process one event after firing any due timer: scheduleSync on a save
clears the existing timer and arms one at the debounce delay from now;
unregisterWorkspace and dispose clear the timer and the callback without
invoking it. -/
def procEvent (w : Nat) (s : KeyState) (e : FsEvent) : KeyState × List Nat :=
  let fired := fireIfDue s e.time
  match e with
  | .save t => ({ fired.1 with pending := some (t + w) }, fired.2)
  | .unregister _ => ({ pending := none, registered := false }, fired.2)
  | .dispose _ => ({ pending := none, registered := false }, fired.2)

/-- Run a time-ordered event list to quiescence: after the last event a
still-pending timer fires at its deadline. Returns all callback
invocation times in order. -/
def runEvents (w : Nat) (s : KeyState) : List FsEvent → List Nat
  | [] =>
    match s.pending with
    | some d => if s.registered then [d] else []
    | none => []
  | e :: es =>
    let step := procEvent w s e
    step.2 ++ runEvents w step.1 es

/-! ## Concrete instances used by the closed checks -/

/-- A transfer result that always fails. -/
def failingResult : SyncResult :=
  { success := false, duration := 100, filesTransferred := some 0,
    bytesTransferred := some 0, error := some "boom" }

/-- A transfer result that succeeds. -/
def successResult : SyncResult :=
  { success := true, duration := 100, filesTransferred := some 5,
    bytesTransferred := some 1000, error := none }

/-- Outcome sequence failing on the first attempt and succeeding from the
second on. -/
def failThenSucceed : Nat → SyncResult :=
  fun i => if i = 0 then failingResult else successResult

/-- Enabled demo connection configuration. -/
def demoConfig : ConnectionConfig :=
  { host := "test-server", remotePath := "/remote/path", enabled := true }

/-- Fresh demo connection state. -/
def demoState : ConnectionState :=
  { config := demoConfig, lastSyncTime := none, failureCount := 0 }

/-- Demo sync configuration with two retries. -/
def demoSyncConfig : SyncConfig :=
  { deleteExtraneous := true, useGitignore := true, additionalExcludes := [],
    retryCount := 2 }

/-- Manager with one idle demo workspace. -/
def idleManager : ConnectionManager :=
  { connections := [("ws", demoState)], activeOperations := [] }

/-- The same manager while a sync for the workspace is in flight. -/
def busyManager : ConnectionManager :=
  { idleManager with activeOperations := ["ws"] }

/-! ## Concrete sanity checks of the embedding -/

example : minimatch "main.py" "*.py" = true := by decide
example : minimatch "src/main.py" "*.py" = false := by decide
example : minimatch "src/main.py" "**/*.py" = true := by decide
example : GitignoreParser.matchesPattern "src/main.py" "*.py" = true := by decide
example : shouldTriggerSync none "main.py" ⟨["*.py", "*.yaml"], []⟩ = true := by decide
example : shouldTriggerSync none "script.js" ⟨["*.py", "*.yaml"], []⟩ = false := by decide
example : shouldTriggerSync none "debug.log" ⟨["*"], ["*.log"]⟩ = false := by decide
example : shouldTriggerSync none "anything.xyz" ⟨["*"], ["*.log"]⟩ = true := by decide
example :
    parseStats "Number of files transferred: 25\nTotal transferred file size: 100,500 bytes\n" =
      { filesTransferred := some 25, bytesTransferred := some 100500 } := by decide
example : parseStats "" = { filesTransferred := some 0, bytesTransferred := some 0 } := by decide
example : runEvents 500 ⟨none, true⟩ [FsEvent.save 0, FsEvent.save 100, FsEvent.save 200] = [700] := by decide
example : runEvents 500 ⟨none, true⟩ [FsEvent.save 0, FsEvent.save 600] = [500, 1100] := by decide
example : runEvents 500 ⟨none, true⟩ [FsEvent.save 0, FsEvent.unregister 100] = [] := by decide
example : runEvents 500 ⟨none, true⟩ [FsEvent.save 0, FsEvent.dispose 100] = [] := by decide

/-! ## Association-list and set lemmas -/

lemma lookup_cons (a k : String) (v : ConnectionState) (t : List (String × ConnectionState)) :
    List.lookup a ((k, v) :: t) = if a == k then some v else List.lookup a t := by
  cases h : a == k <;> simp [List.lookup, h]

lemma lookup_filter_ne (m : List (String × ConnectionState)) (k k' : String) (h : k' ≠ k) :
    (m.filter (fun kv => kv.1 != k)).lookup k' = m.lookup k' := by
  induction m with
  | nil => rfl
  | cons a t ih =>
    rcases a with ⟨ak, av⟩
    by_cases hk : ak = k
    · subst hk
      have h1 : ((ak, av).1 != ak) = false := bne_self_eq_false ak
      have h2 : (k' == ak) = false := beq_eq_false_iff_ne.mpr h
      simp [List.filter_cons, h1, h2, lookup_cons, ih]
    · have h1 : ((ak, av).1 != k) = true := by simp [hk]
      simp [List.filter_cons, h1, lookup_cons, ih]

lemma lookup_filter_self (m : List (String × ConnectionState)) (k : String) :
    (m.filter (fun kv => kv.1 != k)).lookup k = none := by
  induction m with
  | nil => rfl
  | cons a t ih =>
    rcases a with ⟨ak, av⟩
    by_cases hk : ak = k
    · subst hk
      have h1 : ((ak, av).1 != ak) = false := bne_self_eq_false ak
      simp [List.filter_cons, h1, ih]
    · have h1 : ((ak, av).1 != k) = true := by simp [hk]
      have h2 : (k == ak) = false := beq_eq_false_iff_ne.mpr (fun he => hk he.symm)
      simp [List.filter_cons, h1, h2, lookup_cons, ih]

lemma lookup_mapSet (m : List (String × ConnectionState)) (k : String) (v : ConnectionState)
    (k' : String) :
    (mapSet m k v).lookup k' = if k' = k then some v else m.lookup k' := by
  unfold mapSet
  rw [lookup_cons]
  by_cases h : k' = k
  · simp [h]
  · have hb : (k' == k) = false := beq_eq_false_iff_ne.mpr h
    rw [hb]
    simp [h, lookup_filter_ne m k k' h]

lemma contains_true_iff (s : List String) (x : String) : s.contains x = true ↔ x ∈ s :=
  List.elem_iff

lemma contains_false_iff (s : List String) (x : String) : s.contains x = false ↔ x ∉ s := by
  rw [← contains_true_iff]
  cases h : s.contains x <;> simp

lemma contains_setDelete (s : List String) (x : String) :
    (setDelete s x).contains x = false := by
  unfold setDelete
  induction s with
  | nil => rfl
  | cons a t ih =>
    by_cases ha : a = x
    · subst ha
      have h1 : (a != a) = false := bne_self_eq_false a
      simp [List.filter_cons, h1, ih]
    · have h1 : (a != x) = true := by simp [ha]
      have h2 : (x == a) = false := beq_eq_false_iff_ne.mpr (fun he => ha he.symm)
      simp [List.filter_cons, h1, List.contains_cons, h2, ih]
      exact fun he => ha he.symm

lemma not_mem_setDelete (s : List String) (x : String) : x ∉ setDelete s x :=
  (contains_false_iff (setDelete s x) x).mp (contains_setDelete s x)

/-! ## Retry-loop lemmas -/

lemma attemptCount_nil : attemptCount [] = 0 := rfl

lemma attemptCount_attempt_cons (r : SyncResult) (tr : List RetryEvent) :
    attemptCount (RetryEvent.attemptMade r :: tr) = attemptCount tr + 1 := by
  simp [attemptCount, List.countP_cons]

lemma attemptCount_delay_cons (ms : Nat) (tr : List RetryEvent) :
    attemptCount (RetryEvent.delayed ms :: tr) = attemptCount tr := by
  simp [attemptCount, List.countP_cons]

lemma delaysOf_nil : delaysOf [] = [] := rfl

lemma delaysOf_attempt_cons (r : SyncResult) (tr : List RetryEvent) :
    delaysOf (RetryEvent.attemptMade r :: tr) = delaysOf tr := by
  simp [delaysOf, List.filterMap_cons]

lemma delaysOf_delay_cons (ms : Nat) (tr : List RetryEvent) :
    delaysOf (RetryEvent.delayed ms :: tr) = ms :: delaysOf tr := by
  simp [delaysOf, List.filterMap_cons]

/-- Shape of the instrumented retry loop from any start index: at least
one attempt is made, the recorded delays are exactly the schedule values
for the non-final attempt indices, and the trace ends with the final
attempt (no trailing delay). -/
lemma retryLoop_trace (execute : Nat → SyncResult) (n : Nat) :
    ∀ d i, n - i = d →
      1 ≤ attemptCount (retryLoop execute n i).2 ∧
      delaysOf (retryLoop execute n i).2 =
        (List.range' i (attemptCount (retryLoop execute n i).2 - 1)).map retryDelayMs ∧
      (retryLoop execute n i).2.getLast? =
        some (RetryEvent.attemptMade (retryLoop execute n i).1) := by
  intro d
  induction d with
  | zero =>
    intro i hd
    have hni : ¬ i < n := by omega
    rw [retryLoop]
    by_cases hs : (execute i).success
    · simp [hs, attemptCount, delaysOf]
    · simp [hs, hni, attemptCount, delaysOf]
  | succ d ih =>
    intro i hd
    have hin : i < n := by omega
    obtain ⟨ih1, ih2, ih3⟩ := ih (i + 1) (by omega)
    rw [retryLoop]
    by_cases hs : (execute i).success
    · simp [hs, attemptCount, delaysOf]
    · simp only [hs, Bool.false_eq_true, if_false, hin, dif_pos]
      refine ⟨?_, ?_, ?_⟩
      · simp [attemptCount_attempt_cons, attemptCount_delay_cons]
      · rw [delaysOf_attempt_cons, delaysOf_delay_cons, ih2,
          attemptCount_attempt_cons, attemptCount_delay_cons]
        have hc : 1 ≤ attemptCount (retryLoop execute n (i + 1)).2 := ih1
        have : attemptCount (retryLoop execute n (i + 1)).2 + 1 - 1 =
            (attemptCount (retryLoop execute n (i + 1)).2 - 1) + 1 := by omega
        rw [this, List.range'_succ]
        rfl
      · have hne : (retryLoop execute n (i + 1)).2 ≠ [] := by
          intro hnil
          rw [hnil] at ih1
          simp [attemptCount_nil] at ih1
        obtain ⟨e, tr, htr⟩ : ∃ e tr, (retryLoop execute n (i + 1)).2 = e :: tr := by
          rcases hre : (retryLoop execute n (i + 1)).2 with _ | ⟨e, tr⟩
          · exact absurd hre hne
          · exact ⟨e, tr, rfl⟩
        rw [htr, List.getLast?_cons_cons, List.getLast?_cons_cons, ← htr, ih3]

/-- Result and invocation count of the retry loop when every attempt in
range fails: the loop runs to the final attempt and returns its result. -/
lemma retryLoop_allFail (execute : Nat → SyncResult) (n : Nat) :
    ∀ d i, n - i = d → i ≤ n → (∀ j, i ≤ j → j ≤ n → (execute j).success = false) →
      (retryLoop execute n i).1 = execute n ∧
      attemptCount (retryLoop execute n i).2 = n - i + 1 := by
  intro d
  induction d with
  | zero =>
    intro i hd hin hall
    have hii : i = n := by omega
    subst hii
    have hs : (execute i).success = false := hall i le_rfl le_rfl
    rw [retryLoop]
    simp [hs, attemptCount]
  | succ d ih =>
    intro i hd hin hall
    have hlt : i < n := by omega
    have hs : (execute i).success = false := hall i le_rfl (by omega)
    obtain ⟨ih1, ih2⟩ := ih (i + 1) (by omega) (by omega)
      (fun j hj1 hj2 => hall j (by omega) hj2)
    rw [retryLoop]
    simp only [hs, Bool.false_eq_true, if_false, hlt, dif_pos]
    refine ⟨ih1, ?_⟩
    rw [attemptCount_attempt_cons, attemptCount_delay_cons, ih2]
    omega

/-- Result and invocation count of the retry loop when the first success
in range is at index k: the loop stops there and returns that success. -/
lemma retryLoop_firstSuccess (execute : Nat → SyncResult) (n k : Nat)
    (hkn : k ≤ n) (hk : (execute k).success = true) :
    ∀ d i, k - i = d → i ≤ k → (∀ j, i ≤ j → j < k → (execute j).success = false) →
      (retryLoop execute n i).1 = execute k ∧
      attemptCount (retryLoop execute n i).2 = k - i + 1 := by
  intro d
  induction d with
  | zero =>
    intro i hd hik _
    have hii : i = k := by omega
    subst hii
    rw [retryLoop]
    simp [hk, attemptCount]
  | succ d ih =>
    intro i hd hik hfail
    have hilt : i < k := by omega
    have hs : (execute i).success = false := hfail i le_rfl hilt
    have hin : i < n := by omega
    obtain ⟨ih1, ih2⟩ := ih (i + 1) (by omega) (by omega)
      (fun j hj1 hj2 => hfail j (by omega) hj2)
    rw [retryLoop]
    simp only [hs, Bool.false_eq_true, if_false, hin, dif_pos]
    refine ⟨ih1, ?_⟩
    rw [attemptCount_attempt_cons, attemptCount_delay_cons, ih2]
    omega

/-! ## Debounce lemmas -/

/-- Saves that each arrive before the pending deadline keep re-arming the
timer; only the deadline of the last save fires. -/
lemma runSaves_within (w : Nat) :
    ∀ (ts : List Nat) (t0 : Nat),
      List.Chain' (fun a b => b < a + w) (t0 :: ts) →
      runEvents w ⟨some (t0 + w), true⟩ (ts.map FsEvent.save) = [(t0 :: ts).getLastD 0 + w] := by
  intro ts
  induction ts with
  | nil => intro t0 _; simp [runEvents, List.getLastD]
  | cons t1 ts ih =>
    intro t0 hch
    rw [List.chain'_cons] at hch
    obtain ⟨h01, hch⟩ := hch
    have hfire : ¬ t0 + w ≤ t1 := by omega
    rw [List.map_cons, runEvents]
    simp only [procEvent, fireIfDue, FsEvent.time, if_neg hfire]
    rw [ih t1 hch]
    simp [List.getLastD]

/-- Saves that each arrive strictly after the pending deadline let every
timer fire: one invocation per save, at its own deadline. -/
lemma runSaves_spaced (w : Nat) :
    ∀ (ts : List Nat) (t0 : Nat),
      List.Chain' (fun a b => a + w < b) (t0 :: ts) →
      runEvents w ⟨some (t0 + w), true⟩ (ts.map FsEvent.save) =
        (t0 :: ts).map (fun x => x + w) := by
  intro ts
  induction ts with
  | nil => intro t0 _; simp [runEvents]
  | cons t1 ts ih =>
    intro t0 hch
    rw [List.chain'_cons] at hch
    obtain ⟨h01, hch⟩ := hch
    have hfire : t0 + w ≤ t1 := by omega
    rw [List.map_cons, runEvents]
    simp only [procEvent, fireIfDue, FsEvent.time, if_pos hfire]
    rw [ih t1 hch]
    rfl

/-! ## Sync shape lemmas -/

/-- Rejection of a second call while the key is active: with an enabled
connection present and the key marked active, sync returns the
in-progress error and the manager unchanged, for every executor. -/
lemma sync_busy (m : ConnectionManager) (k : String) (cfg : SyncConfig)
    (execute : Nat → SyncResult) (now : Nat) (st : ConnectionState)
    (hlk : m.connections.lookup k = some st) (hen : st.config.enabled = true)
    (hact : m.activeOperations.contains k = true) :
    m.sync k cfg execute now =
      (Except.error (SyncThrow.conn
        (mkConnectionError "Sync already in progress" SYNC_IN_PROGRESS)), m) := by
  unfold ConnectionManager.sync
  rw [hlk]
  have hmem : k ∈ m.activeOperations := (contains_true_iff _ _).mp hact
  simp [hen, hmem]

/-- After any completed sync call the key is no longer marked active,
provided it was not marked by another call; this covers the rejection
paths, the normal return and the rethrow from the finally block. -/
lemma sync_active_cleared (m : ConnectionManager) (k : String) (cfg : SyncConfig)
    (execute : Nat → SyncResult) (now : Nat)
    (h : m.activeOperations.contains k = false) :
    (m.sync k cfg execute now).2.activeOperations.contains k = false := by
  unfold ConnectionManager.sync
  cases hlk : m.connections.lookup k with
  | none => simpa using h
  | some st =>
    by_cases hen : st.config.enabled = false
    · simpa [hen] using h
    · have hnm : k ∉ m.activeOperations := (contains_false_iff _ _).mp h
      simp only [hen, if_false, hnm, Bool.false_eq_true]
      cases her : executeWithRetry execute cfg.retryCount with
      | error msg => simp [hnm, not_mem_setDelete]
      | ok p =>
        rcases p with ⟨res, tr⟩
        simp [hnm, not_mem_setDelete]

/-- Shape of a sync call that passes both guards with a non-negative
retry count: it returns the retry-loop result and stores the updated
state for the key. -/
lemma sync_ok_shape (m : ConnectionManager) (k : String) (cfg : SyncConfig)
    (execute : Nat → SyncResult) (now : Nat) (st : ConnectionState)
    (hlk : m.connections.lookup k = some st) (hen : st.config.enabled = true)
    (hact : m.activeOperations.contains k = false) (hrc : 0 ≤ cfg.retryCount) :
    m.sync k cfg execute now =
      (Except.ok (retryLoop execute cfg.retryCount.toNat 0).1,
       { connections := mapSet m.connections k
           (if (retryLoop execute cfg.retryCount.toNat 0).1.success then
              { st with lastSyncTime := some now, failureCount := 0 }
            else { st with failureCount := st.failureCount + 1 }),
         activeOperations := setDelete (setAdd m.activeOperations k) k }) := by
  have hnn : ¬ cfg.retryCount < 0 := by omega
  unfold ConnectionManager.sync
  rw [hlk]
  rcases hp : retryLoop execute cfg.retryCount.toNat 0 with ⟨res, tr⟩
  simp only [hen, if_false, hact, Bool.false_eq_true, executeWithRetry, if_neg hnn, hp]
  by_cases hs : res.success <;> simp [hs]

/-- The connections map after any sync call: unchanged, or updated at the
looked-up key with the success-reset or failure-increment state. -/
lemma sync_connections_cases (m : ConnectionManager) (k : String) (cfg : SyncConfig)
    (execute : Nat → SyncResult) (now : Nat) :
    (m.sync k cfg execute now).2.connections = m.connections ∨
    ∃ st, m.connections.lookup k = some st ∧
      ((m.sync k cfg execute now).2.connections =
         mapSet m.connections k { st with lastSyncTime := some now, failureCount := 0 } ∨
       (m.sync k cfg execute now).2.connections =
         mapSet m.connections k { st with failureCount := st.failureCount + 1 }) := by
  unfold ConnectionManager.sync
  cases hlk : m.connections.lookup k with
  | none => left; rfl
  | some st =>
    by_cases hen : st.config.enabled = false
    · left; simp [hen]
    · by_cases hmem : k ∈ m.activeOperations
      · left; simp [hen, hmem]
      · cases her : executeWithRetry execute cfg.retryCount with
        | error msg => left; simp [hen, hmem, her]
        | ok p =>
          rcases p with ⟨res, tr⟩
          right
          refine ⟨st, rfl, ?_⟩
          by_cases hs : res.success
          · left; simp [hen, hmem, her, hs]
          · right; simp [hen, hmem, her, hs]

/-- The failure count of every stored state is non-negative in every
reachable manager. -/
lemma reachable_nonneg :
    ∀ m, Reachable m → ∀ k st, m.connections.lookup k = some st → 0 ≤ st.failureCount := by
  intro m hr
  induction hr with
  | init => intro k st h; cases h
  | set m0 k0 c _ ih =>
    intro k st h
    unfold ConnectionManager.setConnection at h
    rw [lookup_mapSet] at h
    by_cases hk : k = k0
    · rw [if_pos hk] at h
      cases h
      exact le_refl 0
    · rw [if_neg hk] at h
      exact ih k st h
  | remove m0 k0 _ ih =>
    intro k st h
    unfold ConnectionManager.removeConnection at h
    simp only at h
    by_cases hk : k = k0
    · subst hk
      rw [lookup_filter_self] at h
      cases h
    · rw [lookup_filter_ne _ _ _ hk] at h
      exact ih k st h
  | sync m0 k0 cfg ex now _ ih =>
    intro k st h
    rcases sync_connections_cases m0 k0 cfg ex now with hc | ⟨st0, hlk0, hc | hc⟩ <;>
      rw [hc] at h
    · exact ih k st h
    · rw [lookup_mapSet] at h
      by_cases hk : k = k0
      · rw [if_pos hk] at h
        cases h
        exact le_refl 0
      · rw [if_neg hk] at h
        exact ih k st h
    · rw [lookup_mapSet] at h
      by_cases hk : k = k0
      · rw [if_pos hk] at h
        cases h
        have h0 := ih k0 st0 hlk0
        show (0 : Int) ≤ st0.failureCount + 1
        omega
      · rw [if_neg hk] at h
        exact ih k st h

/-! ## Claim theorems -/

/-- C4: RsyncExecutor.execute resolves every process outcome to a
SyncResult (the embedding is a total function): exit code zero yields a
success carrying the statistics parsed from standard output; any other
exit code yields a failure whose error message embeds the exit code and
the captured standard error; a spawn failure yields a failure carrying
the spawn error and involves no exit code. -/
theorem rsync_execute_result_cases :
    (∀ (stdout stderr : String) (duration : Nat),
      RsyncExecutor.execute (ProcessOutcome.closed (some 0) stdout stderr) duration =
        { success := true, duration := duration,
          filesTransferred := (parseStats stdout).filesTransferred,
          bytesTransferred := (parseStats stdout).bytesTransferred, error := none }) ∧
    (∀ (code : Option Int) (stdout stderr : String) (duration : Nat), code ≠ some 0 →
      RsyncExecutor.execute (ProcessOutcome.closed code stdout stderr) duration =
        { success := false, duration := duration, filesTransferred := some 0,
          bytesTransferred := some 0,
          error := some ("Rsync failed with code " ++ jsCodeStr code ++ ": " ++ stderr) }) ∧
    (∀ (message : String) (duration : Nat),
      RsyncExecutor.execute (ProcessOutcome.spawnError message) duration =
        { success := false, duration := duration, filesTransferred := some 0,
          bytesTransferred := some 0, error := some message }) := by
  refine ⟨fun stdout stderr duration => rfl, ?_, fun message duration => rfl⟩
  intro code stdout stderr duration hc
  have hb : (code == some 0) = false := beq_eq_false_iff_ne.mpr hc
  simp [RsyncExecutor.execute, hb]

/-- C4 check: a non-zero exit code at a concrete input. -/
theorem rsync_execute_result_cases_check :
    (some 1 : Option Int) ≠ some 0 ∧
    RsyncExecutor.execute (ProcessOutcome.closed (some 1) "" "permission denied") 50 =
      { success := false, duration := 50, filesTransferred := some 0,
        bytesTransferred := some 0,
        error := some ("Rsync failed with code " ++ jsCodeStr (some 1) ++ ": " ++
          "permission denied") } :=
  ⟨by decide, rsync_execute_result_cases.2.1 (some 1) "" "permission denied" 50 (by decide)⟩

/-- C7 counterexample: the trigger gate does not give a separator-free
pattern basename-anywhere semantics; the nested path src/main.py does
not trigger under the pattern star-dot-py, although the very same
pattern does match that path through the ignore-file matcher with its
implicit globstar alternative. -/
theorem trigger_basename_counterexample :
    shouldTriggerSync none "src/main.py" ⟨["*.py"], []⟩ = false ∧
    GitignoreParser.matchesPattern "src/main.py" "*.py" = true :=
  ⟨by decide, by decide⟩

/-- C7 amended: trigger patterns are matched with plain minimatch
against the whole relative path, so a separator-free pattern only
matches paths at the workspace root, while ignore-file patterns without
a separator do match at any depth through the implicit globstar
alternative of GitignoreParser.matchesPattern. -/
theorem trigger_gate_plain_match :
    shouldTriggerSync none "main.py" ⟨["*.py"], []⟩ = true ∧
    shouldTriggerSync none "src/main.py" ⟨["*.py"], []⟩ = false ∧
    GitignoreParser.matchesPattern "src/main.py" "*.py" = true ∧
    (∀ (rel : String) (tc : TriggerConfig),
      shouldTriggerSync none rel tc =
        (!tc.excludePatterns.any (fun p => minimatch rel p) &&
         (tc.patterns.contains "*" || tc.patterns.any (fun p => minimatch rel p)))) := by
  refine ⟨by decide, by decide, by decide, ?_⟩
  intro rel tc
  unfold shouldTriggerSync
  by_cases he : tc.excludePatterns.any (fun p => minimatch rel p)
  · simp [he]
  · by_cases hstar : tc.patterns.contains "*"
    · simp [he, hstar]
    · simp [he, hstar]

/-- C8: isIgnored gives negated patterns absolute precedence — any
matching negated pattern makes the path not ignored; with no matching
negated pattern the path is ignored exactly when a positive pattern
matches; the rule-set constructor skips blank lines and hash-comment
lines; and on the ignore file with star-dot-log and negated
important-dot-log, important.log is not ignored while other.log is. -/
theorem ignore_negation_precedence :
    (∀ (g : GitignoreParser) (rel : String),
      g.negativePatterns.any (fun p => matchesPatternL rel.toList p) = true →
      g.isIgnored rel = false) ∧
    (∀ (g : GitignoreParser) (rel : String),
      g.negativePatterns.any (fun p => matchesPatternL rel.toList p) = false →
      g.isIgnored rel = g.patterns.any (fun p => matchesPatternL rel.toList p)) ∧
    (∀ (acc : GitignoreParser) (line : List Char),
      (jsTrim line).isEmpty = true ∨ startsWithL (jsTrim line) ['#'] = true →
      gitignoreStep acc line = acc) ∧
    ((GitignoreParser.ofContent "*.log\n!important.log").isIgnored "important.log" = false ∧
     (GitignoreParser.ofContent "*.log\n!important.log").isIgnored "other.log" = true) := by
  refine ⟨?_, ?_, ?_, by decide, by decide⟩
  · intro g rel h
    unfold GitignoreParser.isIgnored
    rw [h]
    simp
  · intro g rel h
    unfold GitignoreParser.isIgnored
    rw [h]
    simp
  · intro acc line h
    rcases h with h | h <;> simp [gitignoreStep, h]

/-- C8 check: the negated pattern of the example rule set matches
important.log, and the file is accordingly not ignored. -/
theorem ignore_negation_precedence_check :
    (GitignoreParser.ofContent "*.log\n!important.log").negativePatterns.any
        (fun p => matchesPatternL "important.log".toList p) = true ∧
    (GitignoreParser.ofContent "*.log\n!important.log").isIgnored "important.log" = false :=
  ⟨by decide,
   ignore_negation_precedence.1 (GitignoreParser.ofContent "*.log\n!important.log")
     "important.log" (by decide)⟩

/-- C9: parseStats extracts the files count from the
number-of-files-transferred line and the byte count from the
total-transferred-file-size line with thousands separators stripped
before parsing, as on the concrete outputs; a field whose pattern does
not occur in the output parses to zero rather than an error. -/
theorem parse_stats_extraction :
    parseStats "Number of files transferred: 25\nTotal transferred file size: 100,500 bytes\n" =
      { filesTransferred := some 25, bytesTransferred := some 100500 } ∧
    (∀ output : String, searchFrom matchFilesAt output.toList = none →
      (parseStats output).filesTransferred = some 0) ∧
    (∀ output : String, searchFrom matchBytesAt output.toList = none →
      (parseStats output).bytesTransferred = some 0) ∧
    parseStats "Total transferred file size: 1,024 bytes" =
      { filesTransferred := some 0, bytesTransferred := some 1024 } := by
  refine ⟨by decide, ?_, ?_, by decide⟩
  · intro output h
    simp only [String.toList] at h
    simp [parseStats, String.toList, h]
  · intro output h
    simp only [String.toList] at h
    simp [parseStats, String.toList, h]

/-- C9 check: an output without either statistics line parses both
fields to zero. -/
theorem parse_stats_extraction_check :
    searchFrom matchFilesAt "sent 42 bytes".toList = none ∧
    (parseStats "sent 42 bytes").filesTransferred = some 0 :=
  ⟨by decide, parse_stats_extraction.2.1 "sent 42 bytes" (by decide)⟩

/-- C10: setConnection replaces the stored state wholesale — afterwards
the state for the key holds the new config with failure count zero and
no last-sync time, regardless of what was stored before, and the two
accessors observe exactly that. -/
theorem set_connection_resets_state (m : ConnectionManager) (k : String)
    (config : ConnectionConfig) :
    (m.setConnection k config).connections.lookup k =
      some { config := config, lastSyncTime := none, failureCount := 0 } ∧
    (m.setConnection k config).getFailureCount k = 0 ∧
    (m.setConnection k config).getLastSyncTime k = none := by
  have h : (m.setConnection k config).connections.lookup k =
      some { config := config, lastSyncTime := none, failureCount := 0 } := by
    unfold ConnectionManager.setConnection
    simp only
    rw [lookup_mapSet]
    simp
  exact ⟨h, by simp [ConnectionManager.getFailureCount, h],
    by simp [ConnectionManager.getLastSyncTime, h]⟩

/-- C1: while a sync for a key is unresolved (the key is in the
active-operations set), a second sync call for that key fails with the
distinguishable in-progress ConnectionError before any use of the
executor — the outcome is one fixed error pair for every executor — and
leaves the whole manager, its connection state included, unchanged; and
a call that starts with the key inactive always ends with the key
inactive again, on the normal return and on the rethrow path alike. -/
theorem sync_concurrency_guard (m : ConnectionManager) (k : String) (cfg : SyncConfig)
    (execute : Nat → SyncResult) (now : Nat) :
    (∀ st : ConnectionState, m.connections.lookup k = some st →
      st.config.enabled = true → m.activeOperations.contains k = true →
      m.sync k cfg execute now =
        (Except.error (SyncThrow.conn
          (mkConnectionError "Sync already in progress" SYNC_IN_PROGRESS)), m)) ∧
    (m.activeOperations.contains k = false →
      (m.sync k cfg execute now).2.activeOperations.contains k = false) :=
  ⟨fun st hlk hen hact => sync_busy m k cfg execute now st hlk hen hact,
   fun h => sync_active_cleared m k cfg execute now h⟩

/-- C1 check: the busy demo manager rejects a second call with the
in-progress error and stays unchanged; the idle demo manager ends a
call with the key inactive. -/
theorem sync_concurrency_guard_check :
    busyManager.sync "ws" demoSyncConfig (fun _ => failingResult) 7 =
      (Except.error (SyncThrow.conn
        (mkConnectionError "Sync already in progress" SYNC_IN_PROGRESS)), busyManager) ∧
    (idleManager.sync "ws" demoSyncConfig (fun _ => failingResult) 7).2.activeOperations.contains
      "ws" = false :=
  ⟨(sync_concurrency_guard busyManager "ws" demoSyncConfig (fun _ => failingResult) 7).1
      demoState (by decide) (by decide) (by decide),
   (sync_concurrency_guard idleManager "ws" demoSyncConfig (fun _ => failingResult) 7).2
      (by decide)⟩

/-- C2: with retry count n, when every attempt fails the executor is
invoked exactly n plus one times and the final failed result is
returned; when the first success is at zero-based attempt index k (the
k-plus-first invocation), the executor is invoked exactly k plus one
times, that success is returned, and the trace ends with that attempt,
so nothing follows it. -/
theorem executeWithRetry_invocation_counts (execute : Nat → SyncResult) (n : Nat) :
    ((∀ i, i ≤ n → (execute i).success = false) →
      ∃ tr, executeWithRetry execute (n : Int) = Except.ok (execute n, tr) ∧
        attemptCount tr = n + 1) ∧
    (∀ k, k ≤ n → (execute k).success = true →
      (∀ i, i < k → (execute i).success = false) →
      ∃ tr, executeWithRetry execute (n : Int) = Except.ok (execute k, tr) ∧
        attemptCount tr = k + 1 ∧
        tr.getLast? = some (RetryEvent.attemptMade (execute k))) := by
  have hnn : ¬ (n : Int) < 0 := by omega
  have htn : ((n : Int)).toNat = n := by omega
  constructor
  · intro hall
    obtain ⟨h1, h2⟩ := retryLoop_allFail execute n n 0 rfl (Nat.zero_le n)
      (fun j _ hj2 => hall j hj2)
    rcases hp : retryLoop execute n 0 with ⟨res, tr⟩
    rw [hp] at h1 h2
    refine ⟨tr, ?_, ?_⟩
    · unfold executeWithRetry
      rw [if_neg hnn, htn, hp]
      simp only at h1
      rw [h1]
    · simpa using h2
  · intro k hkn hk hfail
    obtain ⟨h1, h2⟩ := retryLoop_firstSuccess execute n k hkn hk k 0 rfl (Nat.zero_le k)
      (fun j _ hj2 => hfail j hj2)
    obtain ⟨_, _, h3⟩ := retryLoop_trace execute n n 0 rfl
    rcases hp : retryLoop execute n 0 with ⟨res, tr⟩
    rw [hp] at h1 h2 h3
    simp only at h1 h2 h3
    refine ⟨tr, ?_, ?_, ?_⟩
    · unfold executeWithRetry
      rw [if_neg hnn, htn, hp, h1]
    · simpa using h2
    · rw [h3, h1]

/-- C2 check: three invocations when every attempt fails with retry
count two, and two invocations when the second attempt is the first
success. -/
theorem executeWithRetry_invocation_counts_check :
    (∃ tr, executeWithRetry (fun _ => failingResult) ((2 : Nat) : Int) =
        Except.ok (failingResult, tr) ∧ attemptCount tr = 3) ∧
    (∃ tr, executeWithRetry failThenSucceed ((2 : Nat) : Int) =
        Except.ok (failThenSucceed 1, tr) ∧ attemptCount tr = 2 ∧
        tr.getLast? = some (RetryEvent.attemptMade (failThenSucceed 1))) :=
  ⟨(executeWithRetry_invocation_counts (fun _ => failingResult) 2).1
      (fun i _ => by decide),
   (executeWithRetry_invocation_counts failThenSucceed 2).2 1 (by decide) (by decide)
      (fun i hi => by
        have h0 : i = 0 := by omega
        rw [h0]
        decide)⟩

/-- C3: a sync call that passes both guards with a non-negative retry
count returns a result and updates the stored state from it — failure
count reset to zero and last-sync time set on success, failure count
incremented and last-sync time untouched on failure; and in every
manager reachable through the public operations, every stored failure
count is non-negative. -/
theorem sync_failure_count_update :
    (∀ (m : ConnectionManager) (k : String) (cfg : SyncConfig)
        (execute : Nat → SyncResult) (now : Nat) (st : ConnectionState),
      m.connections.lookup k = some st → st.config.enabled = true →
      m.activeOperations.contains k = false → 0 ≤ cfg.retryCount →
      ∃ r, (m.sync k cfg execute now).1 = Except.ok r ∧
        (m.sync k cfg execute now).2.connections.lookup k =
          some (if r.success then { st with lastSyncTime := some now, failureCount := 0 }
                else { st with failureCount := st.failureCount + 1 })) ∧
    (∀ m, Reachable m → ∀ k st, m.connections.lookup k = some st →
      0 ≤ st.failureCount) := by
  constructor
  · intro m k cfg execute now st hlk hen hact hrc
    have hsh := sync_ok_shape m k cfg execute now st hlk hen hact hrc
    refine ⟨(retryLoop execute cfg.retryCount.toNat 0).1, ?_, ?_⟩
    · rw [hsh]
    · rw [hsh]
      simp only
      rw [lookup_mapSet]
      simp
  · exact reachable_nonneg

/-- C3 check: two guarded calls that fail leave failure counts one then
two, via the update rule at concrete inputs, and a reachable manager
with a stored state whose failure count the invariant bounds. -/
theorem sync_failure_count_update_check :
    (∃ r, (idleManager.sync "ws" demoSyncConfig (fun _ => failingResult) 7).1 =
        Except.ok r ∧
      (idleManager.sync "ws" demoSyncConfig (fun _ => failingResult) 7).2.connections.lookup
          "ws" =
        some (if r.success then { demoState with lastSyncTime := some 7, failureCount := 0 }
              else { demoState with failureCount := demoState.failureCount + 1 })) ∧
    0 ≤ (({} : ConnectionManager).setConnection "ws" demoConfig).getFailureCount "ws" :=
  ⟨sync_failure_count_update.1 idleManager "ws" demoSyncConfig (fun _ => failingResult) 7
      demoState (by decide) (by decide) (by decide) (by decide),
   by
    have h := sync_failure_count_update.2 (({} : ConnectionManager).setConnection "ws" demoConfig)
      (Reachable.set {} "ws" demoConfig Reachable.init) "ws"
      { config := demoConfig, lastSyncTime := none, failureCount := 0 } (by decide)
    exact h⟩

/-- C5: the schedule is one second, then two, then four, with the last
entry repeating for every later attempt index; in every run of the
retry loop the recorded delays are exactly the schedule values at the
indices of the non-final attempts — one delay after each failed
non-final attempt — and the trace ends with an attempt, never with a
delay. -/
theorem retry_backoff_schedule (execute : Nat → SyncResult) (n : Nat) :
    (retryDelayMs 0 = 1000 ∧ retryDelayMs 1 = 2000 ∧
      ∀ i, 2 ≤ i → retryDelayMs i = 4000) ∧
    (∃ res tr, executeWithRetry execute (n : Int) = Except.ok (res, tr) ∧
      delaysOf tr = (List.range' 0 (attemptCount tr - 1)).map retryDelayMs ∧
      1 ≤ attemptCount tr ∧
      tr.getLast? = some (RetryEvent.attemptMade res)) := by
  constructor
  · refine ⟨by decide, by decide, ?_⟩
    intro i hi
    obtain ⟨j, rfl⟩ : ∃ j, i = j + 2 := ⟨i - 2, by omega⟩
    cases j with
    | zero => decide
    | succ j =>
      have hnone : RETRY_DELAYS_MS.get? (j + 1 + 2) = none := by
        simp [RETRY_DELAYS_MS, List.get?]
      simp [retryDelayMs, hnone, RETRY_DELAYS_MS]
  · have hnn : ¬ (n : Int) < 0 := by omega
    have htn : ((n : Int)).toNat = n := by omega
    obtain ⟨h1, h2, h3⟩ := retryLoop_trace execute n n 0 rfl
    rcases hp : retryLoop execute n 0 with ⟨res, tr⟩
    rw [hp] at h1 h2 h3
    simp only at h1 h2 h3
    refine ⟨res, tr, ?_, h2, h1, h3⟩
    unfold executeWithRetry
    rw [if_neg hnn, htn, hp]

/-- C5 check: the schedule value repeats from index two on, and a
concrete all-fail run exhibits the trace shape. -/
theorem retry_backoff_schedule_check :
    retryDelayMs 5 = 4000 ∧
    (∃ res tr, executeWithRetry (fun _ => failingResult) ((2 : Nat) : Int) =
        Except.ok (res, tr) ∧
      delaysOf tr = (List.range' 0 (attemptCount tr - 1)).map retryDelayMs ∧
      1 ≤ attemptCount tr ∧
      tr.getLast? = some (RetryEvent.attemptMade res)) :=
  ⟨(retry_backoff_schedule (fun _ => failingResult) 2).1.2.2 5 (by decide),
   (retry_backoff_schedule (fun _ => failingResult) 2).2⟩

/-- C6: for one workspace key, saves that each fall inside the running
debounce window re-arm the timer and produce exactly one callback
invocation, at the deadline of the last save; saves spaced beyond the
window each produce their own invocation; and an unregister or dispose
before the pending deadline cancels the timer so that no callback ever
fires. -/
theorem debounce_trailing_edge (w : Nat) :
    (∀ (t : Nat) (ts : List Nat), List.Chain' (fun a b => b < a + w) (t :: ts) →
      runEvents w ⟨none, true⟩ ((t :: ts).map FsEvent.save) =
        [(t :: ts).getLastD 0 + w]) ∧
    (∀ (t : Nat) (ts : List Nat), List.Chain' (fun a b => a + w < b) (t :: ts) →
      runEvents w ⟨none, true⟩ ((t :: ts).map FsEvent.save) =
        (t :: ts).map (fun x => x + w)) ∧
    (∀ (s : KeyState) (u : Nat), (∀ d, s.pending = some d → u < d) →
      runEvents w s [FsEvent.unregister u] = [] ∧
      runEvents w s [FsEvent.dispose u] = []) := by
  refine ⟨?_, ?_, ?_⟩
  · intro t ts hch
    rw [List.map_cons, runEvents]
    simp only [procEvent, fireIfDue, FsEvent.time]
    rw [runSaves_within w ts t hch]
    simp [List.getLastD]
  · intro t ts hch
    rw [List.map_cons, runEvents]
    simp only [procEvent, fireIfDue, FsEvent.time]
    rw [runSaves_spaced w ts t hch]
    rfl
  · intro s u hp
    constructor <;>
    · cases hsp : s.pending with
      | none => simp [runEvents, procEvent, fireIfDue, FsEvent.time, hsp]
      | some d =>
        have hlt : ¬ d ≤ u := by
          have := hp d hsp
          omega
        simp [runEvents, procEvent, fireIfDue, FsEvent.time, hsp, hlt]

/-- C6 check: three saves inside one 500 ms window give one invocation;
three saves spaced beyond it give three; an early unregister or dispose
silences a pending timer. -/
theorem debounce_trailing_edge_check :
    runEvents 500 ⟨none, true⟩ ([0, 100, 200].map FsEvent.save) = [700] ∧
    runEvents 500 ⟨none, true⟩ ([0, 600, 1200].map FsEvent.save) = [500, 1100, 1700] ∧
    runEvents 500 ⟨some 500, true⟩ [FsEvent.unregister 100] = [] ∧
    runEvents 500 ⟨some 500, true⟩ [FsEvent.dispose 100] = [] := by
  have h := debounce_trailing_edge 500
  have hwithin := h.1 0 [100, 200] (by
    rw [List.chain'_cons, List.chain'_cons]
    refine ⟨by omega, by omega, List.chain'_singleton 200⟩)
  have hspaced := h.2.1 0 [600, 1200] (by
    rw [List.chain'_cons, List.chain'_cons]
    refine ⟨by omega, by omega, List.chain'_singleton 1200⟩)
  have hcancel := h.2.2 ⟨some 500, true⟩ 100 (fun d hd => by
    have h5 : some (500 : Nat) = some d := hd
    cases h5
    omega)
  refine ⟨?_, ?_, hcancel.1, hcancel.2⟩
  · simpa using hwithin
  · simpa using hspaced

end RemoteSync
